import Mathlib

/-!
# Verification of the snap-store output parsers

A shallow embedding of the two pure parsers in `src/server.py`
(`parse_snap_search` and `parse_snap_info`) together with proofs of the
specification's claims about them.

Python `str` values are modelled as `List Char`.  The Python string
operations used by the parsers (`str.strip`, `str.split('\n')`,
`str.split()` with no argument, `str.split(':', 1)`, `str.startswith(' ')`,
`'\n'.join`, `' '.join`) are modelled by executable functions below; the
Python `dict` built by `parse_snap_info` is modelled as an
insertion-ordered association list with overwrite-in-place assignment.
-/

/-- Python strings are modelled as lists of characters. -/
abbrev Str := List Char

/-- Convert a Lean string literal into the model type. -/
def str (s : String) : Str := s.data

/-- The whitespace class used by Python's argument-less `str.strip()` and
`str.split()`, restricted to the ASCII/Latin-1 range (the parsers only ever
see terminal output). -/
def isPySpace (c : Char) : Bool :=
  c == ' ' || c == '\t' || c == '\n' || c == '\r' || c == '\x0b' || c == '\x0c' ||
  c == '\x1c' || c == '\x1d' || c == '\x1e' || c == '\x1f' || c == '\x85'

/-- Python `s.strip()`: drop whitespace from both ends. -/
def pyStrip (s : Str) : Str :=
  ((s.dropWhile isPySpace).reverse.dropWhile isPySpace).reverse

/-- Helper for `splitNl`: returns the first line and the remaining lines. -/
def splitNlP : Str → Str × List Str
  | [] => ([], [])
  | c :: rest =>
    let r := splitNlP rest
    if c == '\n' then ([], r.1 :: r.2) else (c :: r.1, r.2)

/-- Python `s.split('\n')`: split at every newline, keeping empty pieces;
the result is always nonempty (`"".split('\n') == [""]`). -/
def splitNl (s : Str) : List Str := (splitNlP s).1 :: (splitNlP s).2

/-- Helper for `pySplitWs`: the pending word and the completed words. -/
def pySplitWsP (s : Str) : Str × List Str :=
  s.foldr
    (fun c acc =>
      if isPySpace c then ([], if acc.1.isEmpty then acc.2 else acc.1 :: acc.2)
      else (c :: acc.1, acc.2))
    ([], [])

/-- Python `s.split()` with no argument: split on runs of whitespace,
discarding empty pieces. -/
def pySplitWs (s : Str) : List Str :=
  let r := pySplitWsP s
  if r.1.isEmpty then r.2 else r.1 :: r.2

/-- Split at the first colon: the text before it and the text after it.
(On a colon-free input this returns the whole input and `[]`; the parsers
only use it under a colon-present guard.) -/
def splitFirstColon : Str → Str × Str
  | [] => ([], [])
  | c :: rest =>
    if c == ':' then ([], rest)
    else
      let r := splitFirstColon rest
      (c :: r.1, r.2)

/-- Python `'sep'.join(xs)` for a one-character separator generalised to any
separator string: `joinWith sep [] = ""`, `joinWith sep [x] = x`. -/
def joinWith (sep : Str) : List Str → Str
  | [] => []
  | [x] => x
  | x :: y :: rest => x ++ sep ++ joinWith sep (y :: rest)

/-- Python `line.startswith(' ')` — a single space character, nothing else. -/
def startsWithSpace : Str → Bool
  | [] => false
  | c :: _ => c == ' '

/-- Python `':' in line`. -/
def hasColon (line : Str) : Bool := line.any (fun c => c == ':')

/-- A search result record, with the field names of the source dicts. -/
structure SearchRec where
  name : Str
  version : Str
  publisher : Str
  notes : Str
  summary : Str
deriving DecidableEq, Repr

/-- One iteration of the `for line in lines[1:]` loop of
`parse_snap_search`: `some r` when the line has at least five
whitespace-separated tokens, `none` when it is dropped. -/
def lineToRec (line : Str) : Option SearchRec :=
  match pySplitWs line with
  | t0 :: t1 :: t2 :: t3 :: t4 :: rest =>
      some ⟨t0, t1, t2, t3, joinWith [' '] (t4 :: rest)⟩
  | _ => none

/-- `parse_snap_search` from `src/server.py`. -/
def parse_snap_search (output : Str) : List SearchRec :=
  let lines := splitNl (pyStrip output)
  if lines.length < 2 then []
  else (lines.drop 1).filterMap lineToRec

/-- Python `d[k] = v` on an insertion-ordered dict modelled as an
association list: overwrite in place if the key is present, else append. -/
def dictSet : List (Str × Str) → Str → Str → List (Str × Str)
  | [], k, v => [(k, v)]
  | p :: rest, k, v => if p.1 = k then (k, v) :: rest else p :: dictSet rest k v

/-- Python `d[k]` (as an optional lookup). -/
def dictGet (d : List (Str × Str)) (k : Str) : Option Str :=
  (d.find? (fun p => p.1 == k)).map (fun p => p.2)

/-- The loop state of `parse_snap_info`: `current_key` (`none` = Python
`None`), `current_value`, and the dict built so far. -/
structure InfoState where
  currentKey : Option Str
  currentValue : List Str
  info : List (Str × Str)
deriving DecidableEq, Repr

/-- Python's truthiness test `if current_key:`: `None` and the empty string
are falsy. -/
def keyTruthy : Option Str → Bool
  | none => false
  | some k => !k.isEmpty

/-- The commit step `if current_key: info[current_key] = '\n'.join(current_value)`,
used both between fields and after the loop. -/
def finalize (st : InfoState) : List (Str × Str) :=
  match st.currentKey with
  | none => st.info
  | some k => if k.isEmpty then st.info else dictSet st.info k (joinWith ['\n'] st.currentValue)

/-- One iteration of the `for line in lines` loop of `parse_snap_info`. -/
def infoStep (st : InfoState) (line : Str) : InfoState :=
  if hasColon line && !startsWithSpace line then
    { currentKey := some (pyStrip (splitFirstColon line).1)
      currentValue := [pyStrip (splitFirstColon line).2]
      info := finalize st }
  else if keyTruthy st.currentKey && startsWithSpace line then
    { st with currentValue := st.currentValue ++ [pyStrip line] }
  else st

/-- The body of `parse_snap_info` after the input has been split into lines. -/
def parseInfoLines (lines : List Str) : List (Str × Str) :=
  finalize (lines.foldl infoStep ⟨none, [], []⟩)

/-- `parse_snap_info` from `src/server.py`. -/
def parse_snap_info (output : Str) : List (Str × Str) :=
  parseInfoLines (splitNl (pyStrip output))

/-- The "starts with whitespace" test of the spec's line classification,
parameterised by which characters count as whitespace. -/
def wsHead (ws : Char → Bool) : Str → Bool
  | [] => false
  | c :: _ => ws c

/-- Claim C1's whitespace class: "any whitespace character (space or tab)". -/
def claimWs (c : Char) : Bool := c == ' ' || c == '\t'

/-- The whitespace class the source actually tests: a space character only. -/
def spaceWs (c : Char) : Bool := c == ' '

/-- Modelled from the spec's per-line classification of `parse_info` (spec
§4.2, steps 1–3), with the leading-whitespace test given by `ws`: a line
begins a new field exactly when it contains a colon and does not start with
whitespace; otherwise, if a field is open and the line starts with
whitespace, the trimmed line is appended as a continuation fragment;
otherwise the line is discarded. -/
def claimInfoStep (ws : Char → Bool) (st : InfoState) (line : Str) : InfoState :=
  if hasColon line && !wsHead ws line then
    { currentKey := some (pyStrip (splitFirstColon line).1)
      currentValue := [pyStrip (splitFirstColon line).2]
      info := finalize st }
  else if keyTruthy st.currentKey && wsHead ws line then
    { st with currentValue := st.currentValue ++ [pyStrip line] }
  else st

/-- The spec's description of `parse_info` as a whole, parameterised by the
whitespace class used in the per-line classification. -/
def claimParseInfo (ws : Char → Bool) (output : Str) : List (Str × Str) :=
  finalize ((splitNl (pyStrip output)).foldl (claimInfoStep ws) ⟨none, [], []⟩)

/-- Rebuild a raw text blob from a header line and data lines
(the inverse direction of `splitNl`, used to state line-level claims
about whole-blob inputs). -/
def mkBlob (header : Str) (rows : List Str) : Str :=
  joinWith ['\n'] (header :: rows)

/-- The record the spec promises for a search line: `name`, `version`,
`publisher`, `notes` are the line's first four whitespace-separated tokens
and `summary` is the remaining tokens joined with single spaces. -/
def expectedRec (r : Str) : SearchRec :=
  { name := (pySplitWs r).getD 0 []
    version := (pySplitWs r).getD 1 []
    publisher := (pySplitWs r).getD 2 []
    notes := (pySplitWs r).getD 3 []
    summary := joinWith [' '] ((pySplitWs r).drop 4) }

/-- The text before the first colon of a line (spec wording for the
key part of a new-field line). -/
def beforeFirstColon (line : Str) : Str :=
  line.takeWhile (fun c => !(c == ':'))

/-- The text after the first colon of a line (spec wording for the
initial value fragment of a new-field line). -/
def afterFirstColon (line : Str) : Str :=
  (line.dropWhile (fun c => !(c == ':'))).drop 1

/-- The pair `parse_snap_info` would commit when the state is finalized:
empty unless `current_key` is truthy (set and nonempty). -/
def finCommit : Option Str → List Str → List (Str × Str)
  | none, _ => []
  | some k, cv => if k.isEmpty then [] else [(k, joinWith ['\n'] cv)]

/-- The ordered sequence of `info[current_key] = ...` assignments that
`parse_snap_info` performs while processing `lines` from the state
`(ck, cv)`. -/
def commitEvents : Option Str → List Str → List Str → List (Str × Str)
  | ck, cv, [] => finCommit ck cv
  | ck, cv, line :: rest =>
    if hasColon line && !startsWithSpace line then
      finCommit ck cv ++
        commitEvents (some (pyStrip (splitFirstColon line).1))
          [pyStrip (splitFirstColon line).2] rest
    else if keyTruthy ck && startsWithSpace line then
      commitEvents ck (cv ++ [pyStrip line]) rest
    else commitEvents ck cv rest

/-- All `info[k] = v` assignments performed by `parse_snap_info output`,
in order. -/
def commits (output : Str) : List (Str × Str) :=
  commitEvents none [] (splitNl (pyStrip output))

/-- Python `xs[i]`: `none` models an `IndexError`. -/
def pyIdx (l : List Str) (i : Nat) : Option Str := l.get? i

/-- Python `line.split(':', 1)`: one piece when there is no colon,
otherwise the text before and after the first colon. -/
def pySplitColon1 (line : Str) : List Str :=
  if hasColon line then [(splitFirstColon line).1, (splitFirstColon line).2]
  else [line]

/-- Python tuple unpacking `key, value = xs` of a pair: `none` models the
`ValueError` raised when `xs` does not have exactly two elements. -/
def pyUnpack2 : List Str → Option (Str × Str)
  | [a, b] => some (a, b)
  | _ => none

/-- The loop body of `parse_snap_search` with every partial Python
operation (indexing) made explicit: the outer `none` models an uncaught
exception, the inner `Option` records whether the line yields a record. -/
def lineToRecChecked (line : Str) : Option (Option SearchRec) :=
  let parts := pySplitWs line
  if 5 ≤ parts.length then
    match pyIdx parts 0, pyIdx parts 1, pyIdx parts 2, pyIdx parts 3 with
    | some n, some v, some p, some o =>
        some (some ⟨n, v, p, o, joinWith [' '] (parts.drop 4)⟩)
    | _, _, _, _ => none
  else some none

/-- `parse_snap_search` with every partial Python operation explicit:
`none` models the function raising an exception. -/
def parse_snap_search_checked (output : Str) : Option (List SearchRec) :=
  let lines := splitNl (pyStrip output)
  if lines.length < 2 then some []
  else
    (lines.drop 1).foldlM
      (fun acc line =>
        (lineToRecChecked line).map
          (fun r? => match r? with
            | some r => acc ++ [r]
            | none => acc))
      []

/-- The loop body of `parse_snap_info` with every partial Python operation
(the tuple unpacking of `line.split(':', 1)`) made explicit: `none` models
an uncaught exception. -/
def infoStepChecked (st : InfoState) (line : Str) : Option InfoState :=
  if hasColon line && !startsWithSpace line then
    (pyUnpack2 (pySplitColon1 line)).map
      (fun kv =>
        { currentKey := some (pyStrip kv.1)
          currentValue := [pyStrip kv.2]
          info := finalize st })
  else if keyTruthy st.currentKey && startsWithSpace line then
    some { st with currentValue := st.currentValue ++ [pyStrip line] }
  else some st

/-- `parse_snap_info` with every partial Python operation explicit:
`none` models the function raising an exception. -/
def parse_snap_info_checked (output : Str) : Option (List (Str × Str)) :=
  ((splitNl (pyStrip output)).foldlM infoStepChecked ⟨none, [], []⟩).map finalize

/-- Every key of the dict is a nonempty string. -/
def keysOk (d : List (Str × Str)) : Prop := ∀ p ∈ d, p.1 ≠ []

/-- Perform a sequence of dict assignments in order. -/
def dictSets (d : List (Str × Str)) (ps : List (Str × Str)) : List (Str × Str) :=
  ps.foldl (fun d p => dictSet d p.1 p.2) d

/-! ## Theorems -/

theorem wsHead_space (l : Str) : wsHead spaceWs l = startsWithSpace l := by
  cases l <;> rfl

theorem claimInfoStep_space (st : InfoState) (line : Str) :
    claimInfoStep spaceWs st line = infoStep st line := by
  simp only [claimInfoStep, infoStep, wsHead_space]

theorem splitFirstColon_eq (line : Str) :
    splitFirstColon line = (beforeFirstColon line, afterFirstColon line) := by
  induction line with
  | nil => rfl
  | cons c rest ih =>
    by_cases h : c = ':'
    · simp [splitFirstColon, beforeFirstColon, afterFirstColon, h]
    · simp only [splitFirstColon, beforeFirstColon, afterFirstColon,
        List.takeWhile_cons, List.dropWhile_cons] at ih ⊢
      simp only [beq_iff_eq, h, if_false, ite_false, Bool.not_false, if_true, ite_true] at ih ⊢
      simp [h, ih, List.drop_one]

/-- C1 (counterexample): the claim classifies any line starting with
whitespace — space or tab — as a non-field line, so on
`"a: b\n\tc: d"` it predicts that the tab-indented line is a continuation
of the field `a`; the code tests `line.startswith(' ')`, treats the
tab-indented line as a new field, and produces two fields instead. -/
theorem parse_info_ws_claim_cex :
    parse_snap_info (str "a: b\n\tc: d") ≠ claimParseInfo claimWs (str "a: b\n\tc: d") ∧
    parse_snap_info (str "a: b\n\tc: d") = [(str "a", str "b"), (str "c", str "d")] ∧
    claimParseInfo claimWs (str "a: b\n\tc: d") = [(str "a", str "b\nc: d")] := by
  decide

/-- C1 (amended): for every line of the whole-blob-trimmed input processed
in order, a line begins a new field exactly when it contains a colon and
does not start with a SPACE character; otherwise, if a field is currently
open (key set and nonempty) and the line starts with a space character, the
line's trimmed content is appended as a continuation fragment; otherwise
the line is discarded.  (The code tests only for a leading space, not for
arbitrary whitespace: a tab-starting line with a colon begins a new field,
and a tab-starting line is never a continuation.) -/
theorem parse_info_line_classification (s : Str) :
    parse_snap_info s = claimParseInfo spaceWs s := by
  unfold parse_snap_info parseInfoLines claimParseInfo
  rw [funext fun st => funext fun line => claimInfoStep_space st line]

/-- C2: parsing the spec's worked example yields exactly the keys
`name`, `summary`, `channels`, with the multi-line summary joined by one
newline and the `channels` value starting with the empty initial
fragment. -/
theorem parse_info_example :
    parse_snap_info (str "name: firefox\nsummary: A browser\n  that is fast\nchannels:\n  stable: 120.0\n") =
      [(str "name", str "firefox"),
       (str "summary", str "A browser\nthat is fast"),
       (str "channels", str "\nstable: 120.0")] := by
  decide

/-- C6: a new-field line is split at its first colon only — the key is the
trimmed text before the first colon and the initial value fragment the
trimmed text after it — so colons inside the remainder are preserved, as in
the `description: http://example.com` example. -/
theorem info_first_colon :
    (∀ (st : InfoState) (line : Str), hasColon line = true → startsWithSpace line = false →
      infoStep st line =
        { currentKey := some (pyStrip (beforeFirstColon line))
          currentValue := [pyStrip (afterFirstColon line)]
          info := finalize st }) ∧
    parse_snap_info (str "description: http://example.com") =
      [(str "description", str "http://example.com")] := by
  refine ⟨fun st line h1 h2 => ?_, by decide⟩
  unfold infoStep
  rw [splitFirstColon_eq]
  simp [h1, h2]

theorem info_first_colon_witness :
    infoStep ⟨none, [], []⟩ (str "desc: a:b") =
      { currentKey := some (str "desc")
        currentValue := [str "a:b"]
        info := [] } :=
  (info_first_colon.1 ⟨none, [], []⟩ (str "desc: a:b") (by decide) (by decide)).trans
    (by decide)

/-- C7: whenever the whole-blob-trimmed input splits into fewer than two
lines (e.g. the empty string, or a single header line), `parse_snap_search`
returns the empty list. -/
theorem parse_search_short_input (s : Str)
    (h : (splitNl (pyStrip s)).length < 2) : parse_snap_search s = [] := by
  unfold parse_snap_search
  simp [h]

theorem parse_search_short_input_witness :
    (splitNl (pyStrip (str ""))).length < 2 ∧ parse_snap_search (str "") = [] :=
  ⟨by decide, parse_search_short_input (str "") (by decide)⟩

theorem splitNlP_no_nl (l : Str) (h : '\n' ∉ l) : splitNlP l = (l, []) := by
  induction l with
  | nil => rfl
  | cons c rest ih =>
    rw [List.mem_cons, not_or] at h
    have hc : ¬(c = '\n') := fun e => h.1 e.symm
    simp [splitNlP, ih h.2, hc]

theorem splitNl_no_nl (l : Str) (h : '\n' ∉ l) : splitNl l = [l] := by
  simp [splitNl, splitNlP_no_nl l h]

theorem splitNlP_append (l t : Str) (h : '\n' ∉ l) :
    splitNlP (l ++ '\n' :: t) = (l, splitNl t) := by
  induction l with
  | nil => simp [splitNlP, splitNl]
  | cons c rest ih =>
    rw [List.mem_cons, not_or] at h
    have hc : ¬(c = '\n') := fun e => h.1 e.symm
    simp [splitNlP, ih h.2, hc]

theorem splitNl_append (l t : Str) (h : '\n' ∉ l) :
    splitNl (l ++ '\n' :: t) = l :: splitNl t := by
  simp [splitNl, splitNlP_append l t h]

theorem splitNl_joinWith (ls : List Str) (hne : ls ≠ [])
    (h : ∀ l ∈ ls, '\n' ∉ l) : splitNl (joinWith ['\n'] ls) = ls := by
  induction ls with
  | nil => exact absurd rfl hne
  | cons x rest ih =>
    cases rest with
    | nil => exact splitNl_no_nl x (h x (List.mem_cons_self x []))
    | cons y r =>
      have hx : '\n' ∉ x := h x (List.mem_cons_self x (y :: r))
      have hjoin : joinWith ['\n'] (x :: y :: r) = x ++ '\n' :: joinWith ['\n'] (y :: r) := by
        simp [joinWith, List.append_assoc]
      rw [hjoin, splitNl_append x _ hx,
        ih (by simp) (fun l hl => h l (List.mem_cons_of_mem x hl))]

theorem filterMap_eq_map_of_all {α β : Type} (l : List α) (f : α → Option β) (g : α → β)
    (h : ∀ x ∈ l, f x = some (g x)) : l.filterMap f = l.map g := by
  induction l with
  | nil => rfl
  | cons x rest ih =>
    rw [List.filterMap_cons, h x (List.mem_cons_self x rest), List.map_cons,
      ih (fun y hy => h y (List.mem_cons_of_mem x hy))]

theorem lineToRec_of_len5 (r : Str) (h : 5 ≤ (pySplitWs r).length) :
    lineToRec r = some (expectedRec r) := by
  rcases hw : pySplitWs r with _ | ⟨t0, _ | ⟨t1, _ | ⟨t2, _ | ⟨t3, _ | ⟨t4, rest⟩⟩⟩⟩⟩
  all_goals simp [hw] at h ⊢
  all_goals simp [lineToRec, expectedRec, hw]

/-- C3: for every search blob made of a header line followed by rows each
holding at least five whitespace-separated tokens, the parser returns
exactly one record per row, in input order, whose first four fields are the
row's first four tokens and whose `summary` is the remaining tokens joined
with single spaces (so the original spacing is not preserved). -/
theorem search_rows (header : Str) (rows : List Str)
    (hstrip : pyStrip (mkBlob header rows) = mkBlob header rows)
    (hh : '\n' ∉ header)
    (hrows : ∀ r ∈ rows, '\n' ∉ r ∧ 5 ≤ (pySplitWs r).length) :
    parse_snap_search (mkBlob header rows) = rows.map expectedRec := by
  have hsplit : splitNl (mkBlob header rows) = header :: rows := by
    apply splitNl_joinWith _ (by simp)
    intro l hl
    rcases List.mem_cons.mp hl with rfl | hl2
    · exact hh
    · exact (hrows l hl2).1
  unfold parse_snap_search
  rw [hstrip, hsplit]
  cases rows with
  | nil => simp
  | cons r rs =>
    have hlen : ¬((header :: r :: rs).length < 2) := by simp
    rw [if_neg hlen]
    simp only [List.drop_succ_cons, List.drop_zero]
    exact filterMap_eq_map_of_all _ _ _ (fun x hx => lineToRec_of_len5 x (hrows x hx).2)

theorem search_rows_witness :
    parse_snap_search (mkBlob (str "Name Version Publisher Notes Summary")
        [str "firefox 120.0 mozilla stable Fast web browser"]) =
      [⟨str "firefox", str "120.0", str "mozilla", str "stable", str "Fast web browser"⟩] :=
  (search_rows (str "Name Version Publisher Notes Summary")
      [str "firefox 120.0 mozilla stable Fast web browser"]
      (by decide) (by decide) (by decide)).trans (by decide)

/-- C5: a non-header line with exactly four whitespace-separated tokens
produces no record at all, and a non-header line with exactly five tokens
produces a record whose `summary` is the fifth token verbatim. -/
theorem search_token_thresholds (header line : Str)
    (hstrip : pyStrip (mkBlob header [line]) = mkBlob header [line])
    (hh : '\n' ∉ header) (hl : '\n' ∉ line) :
    ((pySplitWs line).length = 4 → parse_snap_search (mkBlob header [line]) = []) ∧
    (∀ t0 t1 t2 t3 t4, pySplitWs line = [t0, t1, t2, t3, t4] →
      parse_snap_search (mkBlob header [line]) = [⟨t0, t1, t2, t3, t4⟩]) := by
  have hsplit : splitNl (mkBlob header [line]) = [header, line] := by
    apply splitNl_joinWith _ (by simp)
    intro l hlm
    rcases List.mem_cons.mp hlm with rfl | hl2
    · exact hh
    · simp only [List.mem_singleton] at hl2
      exact hl2 ▸ hl
  constructor
  · intro h4
    unfold parse_snap_search
    rw [hstrip, hsplit, if_neg (by simp)]
    have hnone : lineToRec line = none := by
      rcases hw : pySplitWs line with _ | ⟨a, _ | ⟨b, _ | ⟨c, _ | ⟨d, _ | ⟨e, rest⟩⟩⟩⟩⟩
      all_goals simp [hw] at h4 ⊢
      all_goals simp [lineToRec, hw]
    simp [hnone]
  · intro t0 t1 t2 t3 t4 ht
    unfold parse_snap_search
    rw [hstrip, hsplit, if_neg (by simp)]
    have hsome : lineToRec line = some ⟨t0, t1, t2, t3, t4⟩ := by
      unfold lineToRec
      rw [ht]
      rfl
    simp [hsome]

theorem dictGet_dictSet_self (d : List (Str × Str)) (k v : Str) :
    dictGet (dictSet d k v) k = some v := by
  induction d with
  | nil => simp [dictSet, dictGet, List.find?]
  | cons p rest ih =>
    by_cases hp : p.1 = k
    · simp [dictSet, dictGet, hp, List.find?]
    · simp only [dictSet, hp, if_false, ite_false]
      simpa [dictGet, List.find?_cons, hp] using ih

theorem dictGet_dictSet_ne (d : List (Str × Str)) (k' k v : Str) (h : k' ≠ k) :
    dictGet (dictSet d k' v) k = dictGet d k := by
  induction d with
  | nil =>
    simp only [dictSet, dictGet, List.find?]
    rw [beq_eq_false_iff_ne.mpr h]
  | cons p rest ih =>
    by_cases hp : p.1 = k'
    · simp [dictSet, dictGet, hp, List.find?_cons, h]
    · simp only [dictSet, hp, if_false, ite_false]
      by_cases hpk : p.1 = k
      · simp [dictGet, List.find?_cons, hpk]
      · simpa [dictGet, List.find?_cons, hpk] using ih

theorem dictSets_append (d : List (Str × Str)) (ps qs : List (Str × Str)) :
    dictSets d (ps ++ qs) = dictSets (dictSets d ps) qs := by
  simp [dictSets, List.foldl_append]

theorem finalize_eq_commit (ck : Option Str) (cv : List Str) (d : List (Str × Str)) :
    finalize ⟨ck, cv, d⟩ = dictSets d (finCommit ck cv) := by
  cases ck with
  | none => rfl
  | some k =>
    by_cases hk : k.isEmpty <;> simp [finalize, finCommit, dictSets, hk]

theorem foldl_infoStep_commits (lines : List Str) :
    ∀ (ck : Option Str) (cv : List Str) (d : List (Str × Str)),
      finalize (lines.foldl infoStep ⟨ck, cv, d⟩) = dictSets d (commitEvents ck cv lines) := by
  induction lines with
  | nil => exact fun ck cv d => finalize_eq_commit ck cv d
  | cons line rest ih =>
    intro ck cv d
    by_cases h1 : (hasColon line && !startsWithSpace line) = true
    · simp only [List.foldl_cons, commitEvents, infoStep, h1, if_true, ite_true,
        dictSets_append]
      rw [← finalize_eq_commit ck cv d]
      exact ih _ _ _
    · by_cases h2 : (keyTruthy ck && startsWithSpace line) = true
      · simp only [List.foldl_cons, commitEvents, infoStep, h1, h2, if_true, ite_true,
          if_false, ite_false]
        exact ih _ _ _
      · simp only [List.foldl_cons, commitEvents, infoStep, h1, h2, if_false, ite_false]
        exact ih _ _ _

theorem dictGet_dictSets (ps : List (Str × Str)) (d : List (Str × Str)) (k : Str) :
    dictGet (dictSets d ps) k =
      match ps.reverse.find? (fun p => p.1 == k) with
      | some p => some p.2
      | none => dictGet d k := by
  induction ps using List.reverseRecOn with
  | nil => simp [dictSets]
  | append_singleton qs p ih =>
    rw [dictSets_append, List.reverse_append]
    by_cases hk : p.1 = k
    · simp only [List.reverse_singleton, List.singleton_append, List.find?_cons,
        hk, beq_self_eq_true]
      simp only [dictSets, List.foldl_cons, List.foldl_nil]
      rw [hk, dictGet_dictSet_self]
    · simp only [List.reverse_singleton, List.singleton_append, List.find?_cons]
      have hb : (p.1 == k) = false := beq_eq_false_iff_ne.mpr hk
      simp only [hb]
      simp only [dictSets, List.foldl_cons, List.foldl_nil]
      rw [dictGet_dictSet_ne _ _ _ _ hk]
      exact ih

/-- C4: the result of `parse_snap_info` binds each key to the value of the
LAST `info[key] = value` assignment the parser performs for it (later
occurrences of a duplicated top-level key overwrite earlier ones, with no
merging and no error); in particular `"name: a\nname: b"` yields a mapping
where `name` is bound to `"b"` only. -/
theorem info_last_write :
    (∀ (s : Str) (k : Str),
      dictGet (parse_snap_info s) k =
        match (commits s).reverse.find? (fun p => p.1 == k) with
        | some p => some p.2
        | none => none) ∧
    parse_snap_info (str "name: a\nname: b") = [(str "name", str "b")] := by
  refine ⟨fun s k => ?_, by decide⟩
  unfold parse_snap_info parseInfoLines commits
  rw [foldl_infoStep_commits, dictGet_dictSets]
  cases h : (commitEvents none [] (splitNl (pyStrip s))).reverse.find? (fun p => p.1 == k) <;>
    simp [dictGet]

theorem lineToRecChecked_eq (line : Str) :
    lineToRecChecked line = some (lineToRec line) := by
  unfold lineToRecChecked lineToRec pyIdx
  rcases hw : pySplitWs line with _ | ⟨t0, _ | ⟨t1, _ | ⟨t2, _ | ⟨t3, _ | ⟨t4, rest⟩⟩⟩⟩⟩
  all_goals simp [hw]

theorem searchFoldChecked (l : List Str) (acc : List SearchRec) :
    (l.foldlM
        (fun acc line =>
          (lineToRecChecked line).map
            (fun r? => match r? with
              | some r => acc ++ [r]
              | none => acc))
        acc : Option (List SearchRec)) =
      some (acc ++ l.filterMap lineToRec) := by
  induction l generalizing acc with
  | nil => simp
  | cons x rest ih =>
    rw [List.foldlM_cons, lineToRecChecked_eq x]
    cases hx : lineToRec x with
    | none => simp [hx, ih, List.filterMap_cons]
    | some r => simp [hx, ih, List.filterMap_cons]

theorem infoStepChecked_eq (st : InfoState) (line : Str) :
    infoStepChecked st line = some (infoStep st line) := by
  unfold infoStepChecked infoStep
  by_cases h1 : (hasColon line && !startsWithSpace line) = true
  · have hc : hasColon line = true := (Bool.and_eq_true _ _ |>.mp h1).1
    simp [h1, pySplitColon1, pyUnpack2, hc]
    split_ifs <;> rfl
  · simp [h1]
    split_ifs <;> rfl

theorem infoFoldChecked (lines : List Str) :
    ∀ st : InfoState,
      (lines.foldlM infoStepChecked st : Option InfoState) =
        some (lines.foldl infoStep st) := by
  induction lines with
  | nil => intro st; rfl
  | cons line rest ih =>
    intro st
    rw [List.foldlM_cons, infoStepChecked_eq st line]
    simpa using ih (infoStep st line)

/-- C9: both parsers are total and raise no exception: with every partial
Python operation (list indexing, tuple unpacking of `split(':', 1)`)
modelled explicitly as `Option`, the checked variants succeed on EVERY
input and return exactly the values of the pure parsers — malformed input
degrades to an empty list or a mapping with missing keys, never a
failure. -/
theorem parsers_total (s : Str) :
    parse_snap_search_checked s = some (parse_snap_search s) ∧
    parse_snap_info_checked s = some (parse_snap_info s) := by
  constructor
  · unfold parse_snap_search_checked parse_snap_search
    by_cases h : (splitNl (pyStrip s)).length < 2
    · simp [h]
    · simp only [h, if_false, ite_false]
      simpa using searchFoldChecked ((splitNl (pyStrip s)).drop 1) []
  · unfold parse_snap_info_checked parse_snap_info parseInfoLines
    rw [infoFoldChecked]
    rfl

/-- C8 (counterexample): the claim counts any whitespace-starting line
before a key is opened — including a tab-starting one — as discarded, so on
`"x\n\ta: b"` it predicts the result of parsing the remaining line `"x"`
alone, i.e. the empty mapping; the code tests `line.startswith(' ')`,
treats `"\ta: b"` as a new-field line, and returns `{a: b}`. -/
theorem info_pre_continuation_cex :
    parse_snap_info (str "x\n\ta: b") = [(str "a", str "b")] ∧
    parseInfoLines [str "x"] = [] ∧
    parse_snap_info (str "x\n\ta: b") ≠ parseInfoLines [str "x"] := by
  decide

theorem foldl_nonfield_init (pre : List Str)
    (h : ∀ l ∈ pre, (hasColon l && !startsWithSpace l) = false) :
    pre.foldl infoStep ⟨none, [], []⟩ = ⟨none, [], []⟩ := by
  induction pre with
  | nil => rfl
  | cons l ls ih =>
    rw [List.foldl_cons]
    have hstep : infoStep ⟨none, [], []⟩ l = ⟨none, [], []⟩ := by
      simp [infoStep, h l (List.mem_cons_self l ls), keyTruthy]
    rw [hstep]
    exact ih (fun x hx => h x (List.mem_cons_of_mem l hx))

/-- C8 (amended): in the region before any new-field line has opened a key
— any run of lines none of which both contains a colon and starts with a
non-space character, space-starting lines possibly interleaved with other
discarded junk — the space-starting lines are silently discarded: deleting
exactly them changes nothing, so the result equals parsing the remaining
lines alone; e.g. `"x\n  a: b"` parses like `["x"]` alone.  (The code
tests only `startswith(' ')`: a tab-starting line that contains a colon is
instead treated as a new-field line, as the counterexample shows.) -/
theorem info_leading_space_lines_dropped :
    (∀ pre rest : List Str,
      (∀ l ∈ pre, (hasColon l && !startsWithSpace l) = false) →
      parseInfoLines (pre ++ rest) =
        parseInfoLines (pre.filter (fun l => !startsWithSpace l) ++ rest)) ∧
    parse_snap_info (str "x\n  a: b") = parseInfoLines [str "x"] := by
  refine ⟨fun pre rest h => ?_, by decide⟩
  unfold parseInfoLines
  rw [List.foldl_append, foldl_nonfield_init pre h, List.foldl_append,
    foldl_nonfield_init _ (fun l hl => h l (List.mem_of_mem_filter hl))]

theorem info_leading_space_lines_dropped_witness :
    parseInfoLines ([str "x", str "  a: b"] ++ [str "name: v"]) =
      parseInfoLines
        ([str "x", str "  a: b"].filter (fun l => !startsWithSpace l) ++ [str "name: v"]) :=
  info_leading_space_lines_dropped.1 [str "x", str "  a: b"] [str "name: v"] (by decide)

/-- C10 (counterexample): the claim says whitespace-starting lines are
discarded while an empty-key field is open, but on `": v\n\tx: y"` the
tab-starting line `"\tx: y"` — whitespace-starting, processed while the
empty-key field opened by `": v"` is open — is NOT discarded: since
`startswith(' ')` is False for a tab, it opens the field `x`, and the
result is `{x: y}` rather than the empty mapping the claim predicts. -/
theorem info_empty_key_ws_cex :
    parse_snap_info (str ": v\n\tx: y") = [(str "x", str "y")] ∧
    infoStep ⟨some [], [str "v"], []⟩ (str "\tx: y") ≠ ⟨some [], [str "v"], []⟩ := by
  decide

theorem dictSet_keysOk {d : List (Str × Str)} {k v : Str}
    (hd : keysOk d) (hk : k ≠ []) : keysOk (dictSet d k v) := by
  induction d with
  | nil =>
    intro p hp
    simp only [dictSet, List.mem_singleton] at hp
    exact hp ▸ hk
  | cons q rest ih =>
    intro p hp
    by_cases hq : q.1 = k
    · simp only [dictSet, hq, if_true, ite_true, List.mem_cons] at hp
      rcases hp with rfl | hp
      · exact hk
      · exact hd p (List.mem_cons_of_mem q hp)
    · simp only [dictSet, hq, if_false, ite_false, List.mem_cons] at hp
      rcases hp with rfl | hp
      · exact hd p (List.mem_cons_self p rest)
      · exact ih (fun x hx => hd x (List.mem_cons_of_mem q hx)) p hp

theorem finalize_keysOk {st : InfoState} (h : keysOk st.info) : keysOk (finalize st) := by
  unfold finalize
  cases hk : st.currentKey with
  | none => exact h
  | some k =>
    by_cases he : k.isEmpty
    · simpa [he] using h
    · have hne : k ≠ [] := by
        intro e
        rw [e] at he
        exact he rfl
      simpa [he] using dictSet_keysOk h hne

theorem infoStep_keysOk {st : InfoState} (line : Str) (h : keysOk st.info) :
    keysOk (infoStep st line).info := by
  unfold infoStep
  split_ifs with h1 h2
  · exact finalize_keysOk h
  · exact h
  · exact h

theorem foldl_infoStep_keysOk (lines : List Str) :
    ∀ st : InfoState, keysOk st.info → keysOk ((lines.foldl infoStep st)).info := by
  induction lines with
  | nil => exact fun st h => h
  | cons line rest ih =>
    intro st h
    rw [List.foldl_cons]
    exact ih _ (infoStep_keysOk line h)

/-- C10 (amended): every key in the result of `parse_snap_info` is a
nonempty string: a colon line whose key part strips to the empty string
opens a field with the empty-string key, but Python's truthiness test
`if current_key:` means that field is never committed, and while it is open
SPACE-starting lines are discarded rather than accumulated.  (A
tab-starting line containing a colon is instead treated as a new-field
line, as the counterexample shows, so "whitespace-starting" must be
narrowed to "space-starting"; the nonempty-key invariant itself holds for
every input.) -/
theorem info_keys_nonempty :
    (∀ (s : Str) (p : Str × Str), p ∈ parse_snap_info s → p.1 ≠ []) ∧
    (∀ (st : InfoState) (line : Str), hasColon line = true → startsWithSpace line = false →
      pyStrip (beforeFirstColon line) = [] → (infoStep st line).currentKey = some []) ∧
    (∀ (st : InfoState) (line : Str), st.currentKey = some [] →
      startsWithSpace line = true → infoStep st line = st) ∧
    (∀ (cv : List Str) (d : List (Str × Str)), finalize ⟨some [], cv, d⟩ = d) := by
  refine ⟨fun s p hp => ?_, fun st line h1 h2 h3 => ?_, fun st line hk hsp => ?_,
    fun cv d => rfl⟩
  · have hok : keysOk (parse_snap_info s) := by
      unfold parse_snap_info parseInfoLines
      exact finalize_keysOk (foldl_infoStep_keysOk _ _ (fun q hq => absurd hq (List.not_mem_nil q)))
    exact hok p hp
  · have hsplit : (splitFirstColon line).1 = beforeFirstColon line :=
      congrArg Prod.fst (splitFirstColon_eq line)
    simp [infoStep, h1, h2, hsplit, h3]
  · have hkt : keyTruthy st.currentKey = false := by
      rw [hk]
      rfl
    simp [infoStep, hsp, hkt]

theorem info_keys_nonempty_witness :
    (str "name", str "x").1 ≠ [] ∧
    (infoStep ⟨none, [], []⟩ (str ": value")).currentKey = some [] ∧
    infoStep ⟨some [], [], []⟩ (str "  cont") = ⟨some [], [], []⟩ ∧
    finalize ⟨some [], [str "value"], []⟩ = [] :=
  ⟨info_keys_nonempty.1 (str "name: x") (str "name", str "x") (by decide),
   info_keys_nonempty.2.1 ⟨none, [], []⟩ (str ": value") (by decide) (by decide) (by decide),
   info_keys_nonempty.2.2.1 ⟨some [], [], []⟩ (str "  cont") rfl (by decide),
   info_keys_nonempty.2.2.2 [str "value"] []⟩

theorem search_token_thresholds_witness :
    parse_snap_search (mkBlob (str "Name Version Publisher Notes Summary") [str "a b c d e"]) =
      [⟨str "a", str "b", str "c", str "d", str "e"⟩] :=
  (search_token_thresholds (str "Name Version Publisher Notes Summary") (str "a b c d e")
      (by decide) (by decide) (by decide)).2
    (str "a") (str "b") (str "c") (str "d") (str "e") (by decide)
